import Mathlib

/-!
Verification development for the stemgen native glue layer.

The embedding models the three C entry points of the repository:

* `LibIface.get_song_info_c`  — src/external/libopenmpt/interface.cpp, lines 14-40
* `LibExt.get_song_info_c`    — src/unnamed/part_000, lines 68-128 (the variant
  that can additionally export one file per sample)
* `get_song_info`             — src/unnamed/part_001, lines 12-33
* `song_render_c`             — the render entry point; the two source variants
  (interface.cpp lines 42-140 and part_000 lines 130-235) share the same
  mute-setup phase and chunked read loop, which are embedded once.

The external module decoder is modelled by a `Decoder` record: the counts and
duration it reports, and a stream `reads : Nat → Option Nat` giving the frame
count returned by the k-th read call (`none` models a decode exception thrown
by that call).  A failed module load is modelled by passing `none` for the
decoder.  All uint32 arithmetic of the source (the loop index `i`, the
`samples_generated` accumulator, the returned byte count) is carried out
modulo `U32 = 2^32`, exactly where the source uses `uint32_t`.
-/

/-- 2^32, the modulus of the uint32 arithmetic used throughout the source. -/
def U32 : Nat := 4294967296

/-- Mirrors `enum SampleFormat { SampleFormat_Flac, SampleFormat_Wav }`
from src/unnamed/part_000. -/
inductive SampleFormat where
  | flac
  | wav
deriving DecidableEq

/-- Mirrors `struct SongInfo { int num_channels; int num_instruments;
float length_seconds; }`.  The floating point duration is only ever copied
from the decoder or zeroed, so it is modelled as a rational. -/
structure SongInfo where
  num_channels : Nat
  num_instruments : Nat
  length_seconds : Rat
deriving DecidableEq

/-- Model of the external libopenmpt module handle: the values its query
functions report, and the stream of read results.  `reads k = none` models
the k-th read call throwing a decode exception; `reads k = some g` models it
returning `g` frames. -/
structure Decoder where
  num_channels : Nat
  num_instruments : Nat
  num_samples : Nat
  duration_seconds : Rat
  reads : Nat → Option Nat

/-- The sample-count fallback applied inline in both `get_song_info_c`
variants and in `song_render_c`:
`if (instrument_count == 0) instrument_count = get_num_samples();`. -/
def effectiveInstrumentCount (raw samples : Nat) : Nat :=
  if raw = 0 then samples else raw

namespace LibIface

/-- Embeds `get_song_info_c` from src/external/libopenmpt/interface.cpp
(lines 14-40).  `none` for the decoder models the module constructor
throwing; the catch block then returns the zero-initialised record. -/
def get_song_info_c (load : Option Decoder) : SongInfo :=
  match load with
  | none => ⟨0, 0, 0⟩
  | some d =>
    { num_channels := d.num_channels
      num_instruments := effectiveInstrumentCount d.num_instruments d.num_samples
      length_seconds := d.duration_seconds }

end LibIface

/-- Zero pad a decimal rendering to width 4, mirroring the `%04d` format
used by the sample exporter. -/
def pad4 (n : Nat) : String :=
  String.mk (List.replicate (4 - (toString n).length) '0') ++ toString n

/-- The file name built by the exporter:
`sprintf(name, "%s_sample_%04d.flac", output_with_stem, i)` and the `.wav`
twin (src/unnamed/part_000, lines 99 and 105). -/
def sampleFileName (stem : String) (fmt : SampleFormat) (i : Nat) : String :=
  match fmt with
  | SampleFormat.flac => stem ++ "_sample_" ++ pad4 i ++ ".flac"
  | SampleFormat.wav => stem ++ "_sample_" ++ pad4 i ++ ".wav"

/-- The export loop `for (int i = 1; i < num_samples + 1; ++i)` of
src/unnamed/part_000 (lines 96-111), written with the remaining iteration
count as the structural argument.  `writeOk i` models whether the
`SaveFLACSample` / `SaveWAVSample` call for index `i` succeeds; each
iteration records the file name attempted and that outcome, and the loop
continues regardless of the outcome, exactly as the source only prints a
message on failure. -/
def exportFrom (stem : String) (fmt : SampleFormat) (writeOk : Nat → Bool) :
    Nat → Nat → List (String × Bool)
  | _, 0 => []
  | i, n + 1 => (sampleFileName stem fmt i, writeOk i) :: exportFrom stem fmt writeOk (i + 1) n

namespace LibExt

/-- Embeds `get_song_info_c` from src/unnamed/part_000 (lines 68-128): the
same info extraction with fallback, plus, when `output_with_stem` is
non-null, one export attempt per sample index `1..=num_samples`. -/
def get_song_info_c (load : Option Decoder) (output_with_stem : Option String)
    (sample_format : SampleFormat) (writeOk : Nat → Bool) :
    SongInfo × List (String × Bool) :=
  match load with
  | none => (⟨0, 0, 0⟩, [])
  | some d =>
    let info : SongInfo :=
      { num_channels := d.num_channels
        num_instruments := effectiveInstrumentCount d.num_instruments d.num_samples
        length_seconds := d.duration_seconds }
    match output_with_stem with
    | none => (info, [])
    | some stem => (info, exportFrom stem sample_format writeOk 1 d.num_samples)

end LibExt

/-- Embeds `get_song_info` from src/unnamed/part_001 (lines 12-33).  Note:
this variant copies `get_num_instruments()` directly and applies no
sample-count fallback. -/
def get_song_info (load : Option Decoder) : SongInfo :=
  match load with
  | none => ⟨0, 0, 0⟩
  | some d =>
    { num_channels := d.num_channels
      num_instruments := d.num_instruments
      length_seconds := d.duration_seconds }

/-- One store into a mute-status array.  `none` means the flag was never
written (the decoder default, unmuted); `some b` means the last write set
it to `b`. -/
def setMute (f : Nat → Option Bool) (i : Nat) (b : Bool) : Nat → Option Bool :=
  fun j => if j = i then some b else f j

/-- The mute-setup loop
`for (int i = 0; i < count; ++i) set_mute_status(i, i == target ? false : true)`
of `song_render_c`, unrolled from the last index: `muteLoop t f n` is the
state after the loop has processed indices `0..n-1`. -/
def muteLoop (target : Int) (f : Nat → Option Bool) : Nat → Nat → Option Bool
  | 0 => f
  | n + 1 => setMute (muteLoop target f n) n (if (n : Int) = target then false else true)

/-- The whole mute-setup phase of `song_render_c`
(interface.cpp lines 69-88, part_000 lines 160-180): the channel pass runs
when `channel_to_play >= 0` and the interactive interface is available; the
instrument pass when `instrument_to_play >= 0` and the interactive (and, in
the part_000 variant, interactive2) interface is available.  Both arrays
start in the untouched state `fun _ => none`.  The interface.cpp variant is
the instance `hasInteractive2 := true`, since it gates the instrument pass
on `interactive` alone. -/
def muteSetup (channel_to_play instrument_to_play : Int)
    (num_channels instrument_count : Nat) (hasInteractive hasInteractive2 : Bool) :
    (Nat → Option Bool) × (Nat → Option Bool) :=
  let ch := if 0 ≤ channel_to_play ∧ hasInteractive = true then
      muteLoop channel_to_play (fun _ => none) num_channels
    else (fun _ => none)
  let inst := if 0 ≤ instrument_to_play ∧ (hasInteractive = true ∧ hasInteractive2 = true) then
      muteLoop instrument_to_play (fun _ => none) instrument_count
    else (fun _ => none)
  (ch, inst)

/-- The effective mute status of an entry: an untouched flag keeps the
decoder default, unmuted. -/
def isMuted (f : Nat → Option Bool) (i : Nat) : Bool :=
  (f i).getD false

/-- Result of one run of the chunked read loop.  `thrown` records whether a
read threw (the exception then propagates to the catch block); `readsDone`
counts the read calls issued; `samples` is the uint32 `samples_generated`
accumulator; `extent` is the furthest output element (int16 or float slot)
past the start of the buffer that the decoder was asked to fill; `log` is
the sequence of frame counts requested from the decoder. -/
structure LoopOut where
  thrown : Bool
  readsDone : Nat
  samples : Nat
  extent : Nat
  log : List Nat
deriving DecidableEq

/-- The 16-bit chunked read loop of `song_render_c`
(interface.cpp lines 90-108, part_000 lines 182-200):
`for (uint32_t i = 0; i < output_len; i += sample_rate)` requesting
`sample_rate` frames per call, breaking when a read returns a different
count.  `i`, and the `samples_generated` accumulator, are uint32 and wrap
modulo `U32`.  Chunk `k` is written at element offset
`k * sample_rate * width` (the pointer advances by a full chunk stride each
iteration) and covers `gen * width` elements, `width = 2` for interleaved
stereo and `1` for mono.  `fuel` bounds the number of iterations simulated;
`none` means the loop did not finish within `fuel` iterations. -/
def chunkLoop16 (reads : Nat → Option Nat) (sample_rate output_len : Nat) (stereo : Bool) :
    Nat → Nat → Nat → Nat → Nat → List Nat → Option LoopOut
  | 0, _, _, _, _, _ => none
  | fuel + 1, i, k, samples, extent, log =>
    if i < output_len then
      match reads k with
      | none => some ⟨true, k + 1, samples, extent, log ++ [sample_rate]⟩
      | some gen =>
        let width : Nat := if stereo then 2 else 1
        let extent1 := max extent (k * (sample_rate * width) + gen * width)
        let samples1 := (samples + gen) % U32
        if gen ≠ sample_rate then
          some ⟨false, k + 1, samples1, extent1, log ++ [sample_rate]⟩
        else
          chunkLoop16 reads sample_rate output_len stereo fuel
            ((i + sample_rate) % U32) (k + 1) samples1 extent1 (log ++ [sample_rate])
    else
      some ⟨false, k, samples, extent, log⟩

/-- The floating-point chunked read loop of `song_render_c`
(interface.cpp lines 109-128, part_000 lines 201-220), embedded separately
from the 16-bit loop because the source duplicates the block; the element
width in bytes differs (4 instead of 2) but the element-level bookkeeping
is the same. -/
def chunkLoopFloat (reads : Nat → Option Nat) (sample_rate output_len : Nat) (stereo : Bool) :
    Nat → Nat → Nat → Nat → Nat → List Nat → Option LoopOut
  | 0, _, _, _, _, _ => none
  | fuel + 1, i, k, samples, extent, log =>
    if i < output_len then
      match reads k with
      | none => some ⟨true, k + 1, samples, extent, log ++ [sample_rate]⟩
      | some gen =>
        let width : Nat := if stereo then 2 else 1
        let extent1 := max extent (k * (sample_rate * width) + gen * width)
        let samples1 := (samples + gen) % U32
        if gen ≠ sample_rate then
          some ⟨false, k + 1, samples1, extent1, log ++ [sample_rate]⟩
        else
          chunkLoopFloat reads sample_rate output_len stereo fuel
            ((i + sample_rate) % U32) (k + 1) samples1 extent1 (log ++ [sample_rate])
    else
      some ⟨false, k, samples, extent, log⟩

/-- Observable outcome of one `song_render_c` call: the uint32 return value
(`ret`, the reported byte count), the furthest byte written into the output
buffer (`extentBytes`), the read count and final `samples_generated`, and
the mute arrays left on the decoder by the setup phase. -/
structure RenderOut where
  ret : Nat
  extentBytes : Nat
  readsDone : Nat
  samples : Nat
  chanMute : Nat → Option Bool
  instMute : Nat → Option Bool

/-- Embeds `song_render_c` (interface.cpp lines 42-140; part_000 lines
130-235 is the same modulo the extra stereo-separation control, which
touches nothing the claims are about).  A `none` load models the module
constructor throwing: the catch block returns 0 with nothing written.  A
read throwing mid-loop (`LoopOut.thrown`) also reaches the catch block and
returns 0, but the bytes already written stay written.  Otherwise the
return value is `samples_generated * 2 * bytes_per_sample` for stereo and
`samples_generated * bytes_per_sample` for mono, as uint32 arithmetic. -/
def song_render_c (load : Option Decoder) (output_len sample_rate bytes_per_sample : Nat)
    (channel_to_play instrument_to_play : Int)
    (stereo_output hasInteractive hasInteractive2 : Bool) (fuel : Nat) : Option RenderOut :=
  match load with
  | none =>
    some { ret := 0, extentBytes := 0, readsDone := 0, samples := 0,
           chanMute := fun _ => none, instMute := fun _ => none }
  | some d =>
    let instrument_count := effectiveInstrumentCount d.num_instruments d.num_samples
    let m := muteSetup channel_to_play instrument_to_play d.num_channels instrument_count
      hasInteractive hasInteractive2
    let elemSize : Nat := if bytes_per_sample = 2 then 2 else 4
    let res := if bytes_per_sample = 2 then
        chunkLoop16 d.reads sample_rate output_len stereo_output fuel 0 0 0 0 []
      else
        chunkLoopFloat d.reads sample_rate output_len stereo_output fuel 0 0 0 0 []
    match res with
    | none => none
    | some o =>
      some { ret := if o.thrown then 0
                    else if stereo_output then (o.samples * 2 * bytes_per_sample) % U32
                    else (o.samples * bytes_per_sample) % U32,
             extentBytes := o.extent * elemSize,
             readsDone := o.readsDone,
             samples := o.samples,
             chanMute := m.1,
             instMute := m.2 }

/-! ### Helper lemmas (shared, not tied to a single claim) -/

/-- Characterisation of the mute-setup loop: indices below the loop bound
hold the value of their (single) write, indices at or above it are
untouched. -/
theorem muteLoop_apply (t : Int) (f : Nat → Option Bool) :
    ∀ n j, muteLoop t f n j =
      if j < n then some (if (j : Int) = t then false else true) else f j := by
  intro n
  induction n with
  | zero => intro j; simp [muteLoop]
  | succ m ih =>
    intro j
    by_cases hj : j = m
    · subst hj
      simp [muteLoop, setMute]
    · have : muteLoop t f (m + 1) j = muteLoop t f m j := by
        simp [muteLoop, setMute, hj]
      rw [this, ih j]
      have hiff : (j < m + 1) ↔ (j < m) := by omega
      simp only [hiff]

/-- The export loop produces one entry per remaining iteration. -/
theorem exportFrom_length (stem : String) (fmt : SampleFormat) (w : Nat → Bool) :
    ∀ n i, (exportFrom stem fmt w i n).length = n := by
  intro n
  induction n with
  | zero => intro i; rfl
  | succ m ih => intro i; simp [exportFrom, ih]

/-- The j-th entry of the export loop started at index i is the attempt for
sample index `i + j`, with the file name built from that index: every index
is attempted exactly once, regardless of the outcomes of earlier writes. -/
theorem exportFrom_getElem (stem : String) (fmt : SampleFormat) (w : Nat → Bool) :
    ∀ n i j, j < n →
      (exportFrom stem fmt w i n)[j]? = some (sampleFileName stem fmt (i + j), w (i + j)) := by
  intro n
  induction n with
  | zero => intro i j h; omega
  | succ m ih =>
    intro i j hj
    cases j with
    | zero => simp [exportFrom]
    | succ jj =>
      have h2 := ih (i + 1) jj (by omega)
      have harith : i + 1 + jj = i + (jj + 1) := by omega
      simp only [exportFrom, List.getElem?_cons_succ, h2, harith]

/-- The two copies of the chunked read loop compute the same result: the
source duplicates the block verbatim, only the destination element type
differs. -/
theorem chunkLoopFloat_eq_chunkLoop16 (reads : Nat → Option Nat) (s L : Nat) (st : Bool) :
    ∀ fuel i k sm ex log,
      chunkLoopFloat reads s L st fuel i k sm ex log =
        chunkLoop16 reads s L st fuel i k sm ex log := by
  intro fuel
  induction fuel with
  | zero => intro i k sm ex log; rfl
  | succ n ih =>
    intro i k sm ex log
    rw [chunkLoopFloat, chunkLoop16]
    by_cases hi : i < L
    · rw [if_pos hi, if_pos hi]
      cases hr : reads k with
      | none => rfl
      | some g =>
        by_cases hg : g = s
        · simp only [hg, ne_eq, not_true_eq_false, if_false, ih]
        · simp only [ne_eq, hg, not_false_eq_true, if_true]
    · rw [if_neg hi, if_neg hi]


/-- Unfolding step: a read that throws ends the loop with `thrown`. -/
theorem chunkLoop16_none (reads : Nat → Option Nat) (s L : Nat) (st : Bool)
    (fuel i k sm ex : Nat) (log : List Nat) (hi : i < L) (hr : reads k = none) :
    chunkLoop16 reads s L st (fuel + 1) i k sm ex log =
      some ⟨true, k + 1, sm, ex, log ++ [s]⟩ := by
  simp [chunkLoop16, hi, hr]

/-- Unfolding step: a read returning a count different from the requested
`s` adds the partial chunk and ends the loop at once. -/
theorem chunkLoop16_break (reads : Nat → Option Nat) (s L : Nat) (st : Bool)
    (fuel i k sm ex : Nat) (log : List Nat) (g : Nat)
    (hi : i < L) (hr : reads k = some g) (hg : g ≠ s) :
    chunkLoop16 reads s L st (fuel + 1) i k sm ex log =
      some ⟨false, k + 1, (sm + g) % U32,
        max ex (k * (s * (if st then 2 else 1)) + g * (if st then 2 else 1)),
        log ++ [s]⟩ := by
  simp [chunkLoop16, hi, hr, hg]

/-- Unfolding step: a full chunk continues the loop with the uint32 index
advanced by `s`. -/
theorem chunkLoop16_full (reads : Nat → Option Nat) (s L : Nat) (st : Bool)
    (fuel i k sm ex : Nat) (log : List Nat)
    (hi : i < L) (hr : reads k = some s) :
    chunkLoop16 reads s L st (fuel + 1) i k sm ex log =
      chunkLoop16 reads s L st fuel ((i + s) % U32) (k + 1) ((sm + s) % U32)
        (max ex (k * (s * (if st then 2 else 1)) + s * (if st then 2 else 1)))
        (log ++ [s]) := by
  simp [chunkLoop16, hi, hr]

/-- Unfolding step: once the uint32 index reaches `output_len` the loop
stops without issuing another read. -/
theorem chunkLoop16_exit (reads : Nat → Option Nat) (s L : Nat) (st : Bool)
    (fuel i k sm ex : Nat) (log : List Nat) (hi : ¬ i < L) :
    chunkLoop16 reads s L st (fuel + 1) i k sm ex log =
      some ⟨false, k, sm, ex, log⟩ := by
  simp [chunkLoop16, hi]

/-- If the chunk starting at frame index i still fits below output_len, at
least one more read is counted by the ceiling bound. -/
theorem ceil_pos_of_lt (s i L : Nat) (hs : 1 ≤ s) (hiL : i < L) :
    1 ≤ (L - i + s - 1) / s := by
  rw [Nat.one_le_div_iff (by omega)]
  omega

/-- Advancing the frame index by one chunk decreases the ceiling bound. -/
theorem ceil_step (s i L : Nat) (hs : 1 ≤ s) (hiL : i < L) :
    (L - (i + s) + s - 1) / s + 1 ≤ (L - i + s - 1) / s := by
  rcases le_or_lt (L - i) s with h | h
  · have h1 : L - (i + s) = 0 := by omega
    have h2 : (0 + s - 1) / s = 0 := Nat.div_eq_of_lt (by omega)
    rw [h1, h2]
    exact ceil_pos_of_lt s i L hs hiL
  · have h1 : L - (i + s) + s - 1 = L - i - 1 := by omega
    have h2 : L - i + s - 1 = (L - i - 1) + s := by omega
    rw [h1, h2, Nat.add_div_right _ (by omega)]

/-- Master lemma for the chunked read loop: when the sample rate is
positive and the uint32 loop index cannot wrap (`L + s ≤ U32`), the loop
finishes within the ceiling fuel, issues at most `ceil((L - i) / s)`
further reads, and, when every decoder read returns at most the requested
count, accumulates at most `s` further frames per read. -/
theorem chunkLoop16_spec (reads : Nat → Option Nat) (s L : Nat) (st : Bool)
    (hs : 1 ≤ s) (hw : L + s ≤ U32) :
    ∀ fuel i k sm ex log, (L - i + s - 1) / s + 1 ≤ fuel →
      ∃ o, chunkLoop16 reads s L st fuel i k sm ex log = some o ∧
        o.readsDone ≤ k + (L - i + s - 1) / s ∧
        ((∀ j g, reads j = some g → g ≤ s) →
          o.samples ≤ sm + ((L - i + s - 1) / s) * s) := by
  intro fuel
  induction fuel with
  | zero => intro i k sm ex log h; exact absurd h (Nat.not_succ_le_zero _)
  | succ n ih =>
    intro i k sm ex log h
    by_cases hi : i < L
    · have hN := ceil_pos_of_lt s i L hs hi
      cases hr : reads k with
      | none =>
        rw [chunkLoop16_none reads s L st n i k sm ex log hi hr]
        refine ⟨_, rfl, ?_, ?_⟩
        · show k + 1 ≤ k + (L - i + s - 1) / s
          omega
        · intro _
          show sm ≤ sm + (L - i + s - 1) / s * s
          calc sm ≤ sm + 1 * s := by omega
          _ ≤ sm + (L - i + s - 1) / s * s :=
            Nat.add_le_add_left (Nat.mul_le_mul_right s hN) sm
      | some g =>
        by_cases hg2 : g = s
        · rw [hg2] at hr
          rw [chunkLoop16_full reads s L st n i k sm ex log hi hr]
          have hmod : (i + s) % U32 = i + s := Nat.mod_eq_of_lt (by omega)
          rw [hmod]
          have hstep := ceil_step s i L hs hi
          obtain ⟨o, ho, hb1, hb2⟩ :=
            ih (i + s) (k + 1) ((sm + s) % U32)
              (max ex (k * (s * (if st then 2 else 1)) + s * (if st then 2 else 1)))
              (log ++ [s]) (le_trans hstep (Nat.le_of_succ_le_succ h))
          refine ⟨o, ho, ?_, ?_⟩
          · calc o.readsDone ≤ (k + 1) + ((L - (i + s) + s - 1) / s) := hb1
            _ = k + ((L - (i + s) + s - 1) / s + 1) := by ring
            _ ≤ k + ((L - i + s - 1) / s) := Nat.add_le_add_left hstep k
          intro hgle
          have hb2x := hb2 hgle
          calc o.samples
              ≤ (sm + s) % U32 + ((L - (i + s) + s - 1) / s) * s := hb2x
          _ ≤ (sm + s) + ((L - (i + s) + s - 1) / s) * s :=
              Nat.add_le_add_right (Nat.mod_le _ _) _
          _ = sm + (((L - (i + s) + s - 1) / s) * s + s) := by ring
          _ = sm + ((L - (i + s) + s - 1) / s + 1) * s := by ring
          _ ≤ sm + ((L - i + s - 1) / s) * s :=
              Nat.add_le_add_left (Nat.mul_le_mul_right s hstep) sm
        · rw [chunkLoop16_break reads s L st n i k sm ex log g hi hr hg2]
          refine ⟨_, rfl, ?_, ?_⟩
          · show k + 1 ≤ k + (L - i + s - 1) / s
            omega
          · intro hgle
            have hgs : g ≤ s := hgle k g hr
            show (sm + g) % U32 ≤ sm + (L - i + s - 1) / s * s
            calc (sm + g) % U32 ≤ sm + g := Nat.mod_le _ _
            _ ≤ sm + 1 * s := by omega
            _ ≤ sm + (L - i + s - 1) / s * s :=
              Nat.add_le_add_left (Nat.mul_le_mul_right s hN) sm
    · rw [chunkLoop16_exit reads s L st n i k sm ex log hi]
      refine ⟨_, rfl, ?_, ?_⟩
      · show k ≤ k + (L - i + s - 1) / s
        exact Nat.le_add_right k _
      · intro _
        exact Nat.le_add_right sm _

/-- With `sample_rate = 0` the uint32 loop index never advances:
`i += 0` leaves it unchanged, and a decoder returning the requested count
(here 0 frames) never triggers the break, so no amount of fuel finishes
the loop. -/
theorem chunkLoop16_zero_rate (reads : Nat → Option Nat) (L : Nat) (st : Bool)
    (hr : ∀ j, reads j = some 0) :
    ∀ fuel i k sm ex log, i < L → i < U32 →
      chunkLoop16 reads 0 L st fuel i k sm ex log = none := by
  intro fuel
  induction fuel with
  | zero => intro i k sm ex log hi hiu; rfl
  | succ n ih =>
    intro i k sm ex log hi hiu
    rw [chunkLoop16_full reads 0 L st n i k sm ex log hi (hr k)]
    have hmod : (i + 0) % U32 = i := by
      rw [Nat.add_zero]
      exact Nat.mod_eq_of_lt hiu
    rw [hmod]
    exact ih i (k + 1) ((sm + 0) % U32) _ (log ++ [0]) hi hiu

/-- Every request the loop logs asks for exactly `sample_rate` frames. -/
theorem chunkLoop16_log (reads : Nat → Option Nat) (s L : Nat) (st : Bool) :
    ∀ fuel i k sm ex log o,
      chunkLoop16 reads s L st fuel i k sm ex log = some o →
      log.all (fun x => x == s) = true →
      o.log.all (fun x => x == s) = true := by
  intro fuel
  induction fuel with
  | zero => intro i k sm ex log o h hl; simp [chunkLoop16] at h
  | succ n ih =>
    intro i k sm ex log o h hl
    by_cases hi : i < L
    · cases hr : reads k with
      | none =>
        rw [chunkLoop16_none reads s L st n i k sm ex log hi hr] at h
        cases h
        simp [List.all_append, hl]
      | some g =>
        by_cases hg2 : g = s
        · rw [hg2] at hr
          rw [chunkLoop16_full reads s L st n i k sm ex log hi hr] at h
          exact ih _ _ _ _ _ o h (by simp [List.all_append, hl])
        · rw [chunkLoop16_break reads s L st n i k sm ex log g hi hr hg2] at h
          cases h
          simp [List.all_append, hl]
    · rw [chunkLoop16_exit reads s L st n i k sm ex log hi] at h
      cases h
      exact hl

/-! ### Claim theorems -/

/-- C2 counterexample: for a decoder reporting a raw instrument count of 0
and a sample count of 16, the `get_song_info` entry point of
src/unnamed/part_001 returns `num_instruments = 0`, not the sample count
the claim demands; the interface.cpp entry point does apply the fallback on
the same input. -/
theorem get_song_info_no_fallback_cex :
    (get_song_info (some ⟨4, 0, 16, 0, fun _ => none⟩)).num_instruments ≠ 16
    ∧ effectiveInstrumentCount 0 16 = 16
    ∧ (LibIface.get_song_info_c (some ⟨4, 0, 16, 0, fun _ => none⟩)).num_instruments = 16 := by
  exact ⟨by decide, rfl, rfl⟩

/-- C2 (amended): the two `get_song_info_c` variants report the effective
instrument count (raw count with the sample-count fallback), while the
`get_song_info` variant of src/unnamed/part_001 reports the raw instrument
count unchanged, applying no fallback. -/
theorem song_info_fallback_amended (d : Decoder) (stem : Option String)
    (fmt : SampleFormat) (w : Nat → Bool) :
    (LibIface.get_song_info_c (some d)).num_instruments
        = effectiveInstrumentCount d.num_instruments d.num_samples
    ∧ (LibExt.get_song_info_c (some d) stem fmt w).1.num_instruments
        = effectiveInstrumentCount d.num_instruments d.num_samples
    ∧ (get_song_info (some d)).num_instruments = d.num_instruments := by
  refine ⟨rfl, ?_, rfl⟩
  cases stem with
  | none => rfl
  | some stem => rfl

/-- C3: after the mute-setup phase with the interactive interfaces
available, a channel-isolation request (`0 ≤ channel_to_play < C`,
`instrument_to_play = -1`) mutes channel i exactly when `i` differs from
the target and mutes no instrument; an instrument-isolation request is
symmetric; with both indices -1 nothing is muted. -/
theorem mute_setup_isolation (c2p i2p : Int) (C I : Nat) :
    (0 ≤ c2p → c2p < (C : Int) → i2p = -1 →
      (∀ i, i < C →
        (isMuted (muteSetup c2p i2p C I true true).1 i = true ↔ (i : Int) ≠ c2p)) ∧
      (∀ i, isMuted (muteSetup c2p i2p C I true true).2 i = false))
  ∧ (0 ≤ i2p → i2p < (I : Int) → c2p = -1 →
      (∀ i, i < I →
        (isMuted (muteSetup c2p i2p C I true true).2 i = true ↔ (i : Int) ≠ i2p)) ∧
      (∀ i, isMuted (muteSetup c2p i2p C I true true).1 i = false))
  ∧ (c2p = -1 → i2p = -1 →
      ∀ i, isMuted (muteSetup c2p i2p C I true true).1 i = false ∧
           isMuted (muteSetup c2p i2p C I true true).2 i = false) := by
  refine ⟨?_, ?_, ?_⟩
  · intro hc _ hi2
    have h1 : (muteSetup c2p i2p C I true true).1 = muteLoop c2p (fun _ => none) C := by
      simp [muteSetup, hc]
    have h2 : (muteSetup c2p i2p C I true true).2 = fun _ => none := by
      simp [muteSetup, hi2]
    constructor
    · intro i hiC
      rw [h1, isMuted, muteLoop_apply, if_pos hiC]
      by_cases hic : (i : Int) = c2p
      · simp [hic]
      · simp [hic]
    · intro i
      rw [h2]
      rfl
  · intro hi _ hc2
    have h1 : (muteSetup c2p i2p C I true true).2 = muteLoop i2p (fun _ => none) I := by
      simp [muteSetup, hi]
    have h2 : (muteSetup c2p i2p C I true true).1 = fun _ => none := by
      simp [muteSetup, hc2]
    constructor
    · intro i hiI
      rw [h1, isMuted, muteLoop_apply, if_pos hiI]
      by_cases hic : (i : Int) = i2p
      · simp [hic]
      · simp [hic]
    · intro i
      rw [h2]
      rfl
  · intro hc2 hi2 i
    have h1 : (muteSetup c2p i2p C I true true).1 = fun _ => none := by
      simp [muteSetup, hc2]
    have h2 : (muteSetup c2p i2p C I true true).2 = fun _ => none := by
      simp [muteSetup, hi2]
    exact ⟨by rw [h1]; rfl, by rw [h2]; rfl⟩

/-- C3 witness: concrete channel isolation (channel 2 of 4, instruments
untouched). -/
theorem mute_setup_isolation_witness :
    isMuted (muteSetup 2 (-1) 4 8 true true).1 1 = true ∧
    isMuted (muteSetup 2 (-1) 4 8 true true).2 5 = false := by
  have h := (mute_setup_isolation 2 (-1) 4 8).1 (by decide) (by decide) rfl
  exact ⟨(h.1 1 (by decide)).mpr (by decide), h.2 5⟩

/-- C9: channel and instrument isolation are independent switches: with
both indices non-negative (and the interactive interfaces available) both
mute passes run in the same render, writing every flag of both arrays per
the isolation rule; a negative index leaves the corresponding array
entirely unwritten (decoder default state) rather than clearing it. -/
theorem mute_passes_independent (c2p i2p : Int) (C I : Nat) :
    (0 ≤ c2p → 0 ≤ i2p →
      (∀ i, i < C → (muteSetup c2p i2p C I true true).1 i
          = some (if (i : Int) = c2p then false else true)) ∧
      (∀ i, i < I → (muteSetup c2p i2p C I true true).2 i
          = some (if (i : Int) = i2p then false else true)))
  ∧ (c2p < 0 → ∀ i, (muteSetup c2p i2p C I true true).1 i = none)
  ∧ (i2p < 0 → ∀ i, (muteSetup c2p i2p C I true true).2 i = none) := by
  refine ⟨?_, ?_, ?_⟩
  · intro hc hi
    constructor
    · intro i hiC
      have h1 : (muteSetup c2p i2p C I true true).1 = muteLoop c2p (fun _ => none) C := by
        simp [muteSetup, hc]
      rw [h1, muteLoop_apply, if_pos hiC]
    · intro i hiI
      have h2 : (muteSetup c2p i2p C I true true).2 = muteLoop i2p (fun _ => none) I := by
        simp [muteSetup, hi]
      rw [h2, muteLoop_apply, if_pos hiI]
  · intro hneg i
    have h1 : (muteSetup c2p i2p C I true true).1 = fun _ => none := by
      simp [muteSetup, not_le.mpr hneg]
    rw [h1]
  · intro hneg i
    have h2 : (muteSetup c2p i2p C I true true).2 = fun _ => none := by
      simp [muteSetup, not_le.mpr hneg]
    rw [h2]

/-- C9 witness: both passes applied together (channel 1 of 3, instrument 2
of 4), and a negative channel index leaving the channel flags unwritten. -/
theorem mute_passes_independent_witness :
    (muteSetup 1 2 3 4 true true).1 0 = some true ∧
    (muteSetup 1 2 3 4 true true).2 2 = some false ∧
    (muteSetup (-1) 2 3 4 true true).1 0 = none := by
  have h := (mute_passes_independent 1 2 3 4).1 (by decide) (by decide)
  have hneg := (mute_passes_independent (-1) 2 3 4).2.1 (by decide) 0
  refine ⟨?_, ?_, hneg⟩
  · have := h.1 0 (by decide)
    simpa using this
  · have := h.2 2 (by decide)
    simpa using this

/-- C7: with a non-null output stem the exporter attempts exactly one write
per sample index `1..=sample_count`: the attempt list has one entry per
index, and its j-th entry is the file name
`<stem>_sample_<index zero-padded to 4>.<ext>` for index `1 + j` together
with the outcome of that write attempt alone — earlier failures do not
remove later entries. -/
theorem sample_export_all_indices (d : Decoder) (stem : String) (fmt : SampleFormat)
    (w : Nat → Bool) (j : Nat) (hj : j < d.num_samples) :
    ((LibExt.get_song_info_c (some d) (some stem) fmt w).2).length = d.num_samples ∧
    ((LibExt.get_song_info_c (some d) (some stem) fmt w).2)[j]?
      = some (sampleFileName stem fmt (1 + j), w (1 + j)) := by
  constructor
  · exact exportFrom_length stem fmt w d.num_samples 1
  · exact exportFrom_getElem stem fmt w d.num_samples 1 j hj

/-- C7 witness: three samples, flac container, the write for index 2
failing: all three indices are attempted and the second entry carries the
expected zero-padded name with its failure. -/
theorem sample_export_all_indices_witness :
    ((LibExt.get_song_info_c (some ⟨4, 0, 3, 0, fun _ => none⟩) (some "track")
        SampleFormat.flac (fun i => !(i == 2))).2).length = 3 ∧
    ((LibExt.get_song_info_c (some ⟨4, 0, 3, 0, fun _ => none⟩) (some "track")
        SampleFormat.flac (fun i => !(i == 2))).2)[1]?
      = some ("track_sample_0002.flac", false) := by
  have h := sample_export_all_indices ⟨4, 0, 3, 0, fun _ => none⟩ "track"
    SampleFormat.flac (fun i => !(i == 2)) 1 (by decide)
  refine ⟨h.1, ?_⟩
  rw [h.2]
  decide

/-- C1: the render loop compares its frame index against the byte capacity
`output_len`, so the bytes it writes can exceed `output_len`: rendering a
sufficiently long module at 48000 Hz, mono, 16-bit into a 480000-byte
buffer performs 10 full one-second reads and touches 960000 bytes (and
reports 960000 bytes written), twice the supplied capacity. -/
theorem song_render_c_writes_past_capacity :
    (song_render_c (some ⟨4, 0, 0, 0, fun _ => some 48000⟩) 480000 48000 2 (-1) (-1)
        false true true 11).map (fun o => (o.ret, o.extentBytes, o.readsDone))
      = some (960000, 960000, 10)
    ∧ 480000 < 960000 := by
  exact ⟨by decide, by decide⟩

/-- C4: every read the loop issues requests exactly `sample_rate` frames,
and a read returning a different (in particular smaller) count has its
frames added to the uint32 running total and ends the loop at once: the
result is returned with read count `k + 1` and no further read occurs. -/
theorem render_loop_chunk_requests (reads : Nat → Option Nat) (s L : Nat) (st : Bool) :
    (∀ fuel o, chunkLoop16 reads s L st fuel 0 0 0 0 [] = some o →
        o.log.all (fun x => x == s) = true)
  ∧ (∀ fuel i k sm ex log g, i < L → reads k = some g → g ≠ s →
      chunkLoop16 reads s L st (fuel + 1) i k sm ex log =
        some ⟨false, k + 1, (sm + g) % U32,
          max ex (k * (s * (if st then 2 else 1)) + g * (if st then 2 else 1)),
          log ++ [s]⟩) := by
  constructor
  · intro fuel o h
    exact chunkLoop16_log reads s L st fuel 0 0 0 0 [] o h rfl
  · intro fuel i k sm ex log g hi hr hg
    exact chunkLoop16_break reads s L st fuel i k sm ex log g hi hr hg

/-- C4 witness: a run whose second read returns 3 of the 5 requested
frames: the log holds only full requests, and the loop stops right after
the short read with the partial chunk counted. -/
theorem render_loop_chunk_requests_witness :
    ((⟨false, 2, 8, 8, [5, 5]⟩ : LoopOut).log.all (fun x => x == 5) = true) ∧
    chunkLoop16 (fun k => if k = 0 then some 5 else some 3) 5 12 false (3 + 1) 5 1 5 5 [5]
      = some ⟨false, 1 + 1, (5 + 3) % U32,
          max 5 (1 * (5 * (if false then 2 else 1)) + 3 * (if false then 2 else 1)),
          [5] ++ [5]⟩ := by
  constructor
  · exact (render_loop_chunk_requests (fun k => if k = 0 then some 5 else some 3) 5 12 false).1
      4 ⟨false, 2, 8, 8, [5, 5]⟩ (by decide)
  · exact (render_loop_chunk_requests (fun k => if k = 0 then some 5 else some 3) 5 12 false).2
      3 5 1 5 5 [5] 3 (by decide) (by decide) (by decide)

/-- C5 counterexample: the return value is computed in uint32 arithmetic,
so for a large render it is not `samples_generated * 2 * bytes_per_sample`:
one full stereo 16-bit read of 2^31 frames makes the source return
`(2^31 * 2 * 2) mod 2^32 = 0`, while the product is `2^33`. -/
theorem render_return_wraps_cex :
    (song_render_c (some ⟨4, 0, 0, 0, fun _ => some 2147483648⟩) 2147483648 2147483648 2
        (-1) (-1) true true true 3).map (fun o => (o.ret, o.samples))
      = some (0, 2147483648)
    ∧ (2147483648 * 2 * 2 : Nat) ≠ 0 := by
  exact ⟨by decide, by decide⟩

/-- C5 (amended): on the non-failure path the returned byte count is the
uint32 product — `samples_generated * 2 * bytes_per_sample mod 2^32` for
stereo and `samples_generated * bytes_per_sample mod 2^32` for mono — which
coincides with the exact product whenever that product fits in 32 bits. -/
theorem render_return_bytes_amended (d : Decoder) (L s bps : Nat) (c2p i2p : Int)
    (st hI hI2 : Bool) (fuel : Nat) (o : LoopOut)
    (hloop : (if bps = 2 then chunkLoop16 d.reads s L st fuel 0 0 0 0 []
              else chunkLoopFloat d.reads s L st fuel 0 0 0 0 []) = some o)
    (hok : o.thrown = false) :
    ((song_render_c (some d) L s bps c2p i2p st hI hI2 fuel).map RenderOut.ret
      = some (if st then (o.samples * 2 * bps) % U32 else (o.samples * bps) % U32))
  ∧ (st = true → o.samples * 2 * bps < U32 →
      (song_render_c (some d) L s bps c2p i2p st hI hI2 fuel).map RenderOut.ret
        = some (o.samples * 2 * bps))
  ∧ (st = false → o.samples * bps < U32 →
      (song_render_c (some d) L s bps c2p i2p st hI hI2 fuel).map RenderOut.ret
        = some (o.samples * bps)) := by
  have hmain : (song_render_c (some d) L s bps c2p i2p st hI hI2 fuel).map RenderOut.ret
      = some (if st then (o.samples * 2 * bps) % U32 else (o.samples * bps) % U32) := by
    simp [song_render_c, hloop, hok]
  refine ⟨hmain, ?_, ?_⟩
  · intro hst hsmall
    rw [hmain, hst]
    simp [Nat.mod_eq_of_lt hsmall]
  · intro hst hsmall
    rw [hmain, hst]
    simp [Nat.mod_eq_of_lt hsmall]

/-- C5 witness: two full mono reads of 3 frames at 16 bits report
`6 * 2 = 12` bytes. -/
theorem render_return_bytes_amended_witness :
    (song_render_c (some ⟨4, 0, 0, 0, fun _ => some 3⟩) 4 3 2 (-1) (-1) false true true 3).map
        RenderOut.ret = some 12 := by
  have h := render_return_bytes_amended ⟨4, 0, 0, 0, fun _ => some 3⟩ 4 3 2 (-1) (-1)
    false true true 3 ⟨false, 2, 6, 6, [3, 3]⟩ (by decide) rfl
  exact h.2.2 rfl (by decide)

/-- C6: a module-load failure makes both `get_song_info_c` variants return
the zeroed record and `song_render_c` return 0 bytes; a decode exception
thrown by a read inside the render loop also makes `song_render_c` return
0, discarding the frames already generated; in the embedding every such
outcome is an ordinary return value, no exception escapes. -/
theorem decode_failure_yields_zero :
    (LibIface.get_song_info_c none = ⟨0, 0, 0⟩)
  ∧ (∀ stem fmt w, LibExt.get_song_info_c none stem fmt w = (⟨0, 0, 0⟩, []))
  ∧ (∀ L s bps (c2p i2p : Int) (st hI hI2 : Bool) fuel,
      (song_render_c none L s bps c2p i2p st hI hI2 fuel).map RenderOut.ret = some 0)
  ∧ (∀ (d : Decoder) L s bps (c2p i2p : Int) (st hI hI2 : Bool) fuel (o : LoopOut),
      (if bps = 2 then chunkLoop16 d.reads s L st fuel 0 0 0 0 []
       else chunkLoopFloat d.reads s L st fuel 0 0 0 0 []) = some o →
      o.thrown = true →
      (song_render_c (some d) L s bps c2p i2p st hI hI2 fuel).map RenderOut.ret = some 0) := by
  refine ⟨rfl, fun stem fmt w => rfl, fun L s bps c2p i2p st hI hI2 fuel => rfl, ?_⟩
  intro d L s bps c2p i2p st hI hI2 fuel o hloop hth
  simp [song_render_c, hloop, hth]

/-- C6 witness: a decoder whose second read throws after a full first read
of 5 frames: the render returns 0 bytes although 5 frames were already
generated. -/
theorem decode_failure_yields_zero_witness :
    (song_render_c (some ⟨4, 0, 0, 0, fun k => if k = 0 then some 5 else none⟩) 12 5 2
        (-1) (-1) false true true 4).map RenderOut.ret = some 0 := by
  exact decode_failure_yields_zero.2.2.2 ⟨4, 0, 0, 0, fun k => if k = 0 then some 5 else none⟩
    12 5 2 (-1) (-1) false true true 4 ⟨true, 2, 5, 5, [5, 5]⟩ (by decide) rfl

/-- C8: the 16-bit path (`bytes_per_sample = 2`) and the floating-point
path (any other value, here 4) of `song_render_c` drive the decoder
identically: same read count and same `samples_generated` for the same
decoder, buffer capacity, sample rate and channel layout. -/
theorem render_paths_equivalent (load : Option Decoder) (L s : Nat) (c2p i2p : Int)
    (st hI hI2 : Bool) (fuel : Nat) :
    (song_render_c load L s 2 c2p i2p st hI hI2 fuel).map
        (fun o => (o.readsDone, o.samples))
      = (song_render_c load L s 4 c2p i2p st hI hI2 fuel).map
        (fun o => (o.readsDone, o.samples)) := by
  cases load with
  | none => rfl
  | some d =>
    simp only [song_render_c, chunkLoopFloat_eq_chunkLoop16]
    norm_num
    cases chunkLoop16 d.reads s L st fuel 0 0 0 0 [] with
    | none => rfl
    | some o => rfl

/-- C10 counterexample: with uint32 wraparound of the loop index
(`output_len + sample_rate > 2^32`) the loop can issue more than
`ceil(output_len / sample_rate)` reads: at `output_len = 2^31 + 3`,
`sample_rate = 2^31 + 1` a full-chunk decoder is read 3 times while the
ceiling is 2. -/
theorem read_count_exceeds_ceil_with_wrap :
    (chunkLoop16 (fun _ => some 2147483649) 2147483649 2147483651 false 5 0 0 0 0 []).map
        (fun o => o.readsDone) = some 3
    ∧ (2147483651 + 2147483649 - 1) / 2147483649 = 2
    ∧ ¬ (3 ≤ 2) := by
  exact ⟨by decide, by decide, by decide⟩

/-- C10 (amended): when `1 ≤ sample_rate` and the uint32 index cannot wrap
(`output_len + sample_rate ≤ 2^32`), the loop terminates within
`ceil(output_len / sample_rate) + 1` fuel, issues at most
`ceil(output_len / sample_rate)` reads, and — when each read returns at
most the requested count — generates at most
`ceil(output_len / sample_rate) * sample_rate` frames; with
`sample_rate = 0` (and a decoder returning the requested 0 frames) the
index never advances and no fuel finishes the loop. -/
theorem render_loop_terminates_bounded :
    (∀ (reads : Nat → Option Nat) (s L : Nat) (st : Bool),
      1 ≤ s → L + s ≤ U32 →
      ∃ o, chunkLoop16 reads s L st ((L + s - 1) / s + 1) 0 0 0 0 [] = some o ∧
        o.readsDone ≤ (L + s - 1) / s ∧
        ((∀ j g, reads j = some g → g ≤ s) → o.samples ≤ ((L + s - 1) / s) * s))
  ∧ (∀ (reads : Nat → Option Nat) (L : Nat) (st : Bool) (fuel : Nat),
      (∀ j, reads j = some 0) → 0 < L →
      chunkLoop16 reads 0 L st fuel 0 0 0 0 [] = none) := by
  constructor
  · intro reads s L st hs hw
    obtain ⟨o, ho, h1, h2⟩ := chunkLoop16_spec reads s L st hs hw
      ((L + s - 1) / s + 1) 0 0 0 0 [] (le_refl _)
    exact ⟨o, ho, by simpa using h1, fun hg => by simpa using h2 hg⟩
  · intro reads L st fuel hr hL
    exact chunkLoop16_zero_rate reads L st hr fuel 0 0 0 0 [] hL (by decide)

/-- C10 witness: at `output_len = 5`, `sample_rate = 2` (no wraparound) the
loop finishes within the ceiling fuel, while at `sample_rate = 0` it does
not finish with any fuel. -/
theorem render_loop_terminates_bounded_witness :
    (chunkLoop16 (fun _ => some 2) 2 5 false ((5 + 2 - 1) / 2 + 1) 0 0 0 0 []).isSome = true
    ∧ chunkLoop16 (fun _ => some 0) 0 5 false 7 0 0 0 0 [] = none := by
  constructor
  · obtain ⟨o, ho, h1, h2⟩ := render_loop_terminates_bounded.1 (fun _ => some 2) 2 5 false
      (by decide) (by decide)
    rw [ho]
    rfl
  · exact render_loop_terminates_bounded.2 (fun _ => some 0) 5 false 7 (fun j => rfl) (by decide)
